import Mathlib

/-!
Verification development for the balkan-river-bot water-data pipeline.

The definitions below are a shallow embedding of the Go sources:
* `internal/entities/riverdata.go` — the `RiverData` entity;
* `internal/repository` (SQLite repository) — `SaveRiverData`,
  `GetRiverDataByName`, `GetUniqueRivers`, `GetLastUpdateTime` over an
  explicit in-memory model of the `river_data` table;
* `internal/integration/water_scraper.go` — `parseTimestampText` and the
  table-extraction loop of `FetchRhmzRsData`;
* `internal/usecases/river_usecase.go` — `RefreshRiverData`.

Strings are modelled by Lean `String`; all orderings used by SQLite
(`MAX(timestamp)`, `ORDER BY`) are taken on `String.data : List Char`,
whose lexicographic order coincides with SQLite's byte-wise BINARY
collation on valid UTF-8 text.  Go string primitives
(`strings.Split`, `strings.Fields`, `strings.TrimSpace`,
`strings.Contains`) are re-implemented structurally so that concrete
instances evaluate inside the kernel.
-/

namespace WaterBot

/-- Decidable equality of fetch and query outcomes. -/
instance {ε α : Type} [DecidableEq ε] [DecidableEq α] : DecidableEq (Except ε α) := fun a b =>
  match a, b with
  | .ok x, .ok y => if h : x = y then .isTrue (by rw [h]) else .isFalse (by simp [h])
  | .error x, .error y => if h : x = y then .isTrue (by rw [h]) else .isFalse (by simp [h])
  | .ok _, .error _ => .isFalse (by simp)
  | .error _, .ok _ => .isFalse (by simp)

/-- Model of Go `strings.Contains` on character lists: some (possibly empty)
slice of `cs` starts the pattern. -/
def containsList (cs pat : List Char) : Bool :=
  match cs with
  | [] => pat.isEmpty
  | _ :: rest => pat.isPrefixOf cs || containsList rest pat

/-- Model of Go `strings.TrimSpace`: drop Unicode whitespace from both ends. -/
def trimList (cs : List Char) : List Char :=
  ((cs.dropWhile Char.isWhitespace).reverse.dropWhile Char.isWhitespace).reverse

/-- Model of Go `strings.Fields`: split at runs of whitespace, dropping empty
pieces.  `acc` holds the characters of the field being read, reversed. -/
def fieldsAux : List Char → List Char → List (List Char)
  | [], acc => if acc.isEmpty then [] else [acc.reverse]
  | c :: cs, acc =>
    if c.isWhitespace then
      if acc.isEmpty then fieldsAux cs [] else acc.reverse :: fieldsAux cs []
    else fieldsAux cs (c :: acc)

def fieldsList (cs : List Char) : List (List Char) := fieldsAux cs []

/-- Worker for `splitOnList`.  `fuel` starts at the length of the text, and
every step consumes at least one character, so the fuel never runs out; the
fuel argument only makes the recursion structural. -/
def splitOnAux (sep : List Char) : Nat → List Char → List Char → List (List Char)
  | _, [], acc => [acc.reverse]
  | 0, cs, acc => [acc.reverse ++ cs]
  | fuel + 1, c :: cs, acc =>
    if sep.isPrefixOf (c :: cs) then
      acc.reverse :: splitOnAux sep fuel (List.drop (sep.length - 1) cs) []
    else
      splitOnAux sep fuel cs (c :: acc)

/-- Model of Go `strings.Split`: cut at every (non-overlapping, leftmost)
occurrence of the separator.  An empty separator explodes the text into
single characters, as in Go. -/
def splitOnList (cs sep : List Char) : List (List Char) :=
  if sep.isEmpty then cs.map (fun c => [c])
  else splitOnAux sep cs.length cs []

/-- Go `strings.Contains` on `String`. -/
def goContains (s pat : String) : Bool := containsList s.data pat.data

/-- Go `strings.TrimSpace` on `String`. -/
def goTrim (s : String) : String := ⟨trimList s.data⟩

/-- Go `strings.Fields` on `String`. -/
def goFields (s : String) : List String := (fieldsList s.data).map String.mk

/-- Go `strings.Split` on `String`. -/
def goSplit (s sep : String) : List String := (splitOnList s.data sep.data).map String.mk

/-- The `RiverData` entity of `internal/entities/riverdata.go`.  The `id` is
assigned by storage only; scrapers leave it at the Go zero value `0`.  The
timestamp is the serialized zoned instant of the reading; persistence
compares serialized timestamps byte-wise, so it is kept as a string here. -/
structure RiverData where
  id : Int
  river : String
  station : String
  waterLevel : String
  waterChange : String
  discharge : String
  waterTemp : String
  tendency : String
  timestamp : String
deriving DecidableEq

/-- One row of the SQLite `river_data` table.  The schema created by
`NewSQLiteRiverRepository` has exactly these columns
(`id INTEGER PRIMARY KEY AUTOINCREMENT, river, station, water_level,
water_temp, timestamp`) with `UNIQUE(river, station, timestamp)`; note that
`water_change`, `discharge` and `tendency` have no column. -/
structure Row where
  id : Int
  river : String
  station : String
  water_level : String
  water_temp : String
  timestamp : String
deriving DecidableEq

/-- The persistent store: the list of table rows in insertion order plus the
next value of the `AUTOINCREMENT` surrogate id. -/
structure Store where
  rows : List Row
  nextId : Int
deriving DecidableEq

/-- A freshly created database: no rows, ids starting at 1. -/
def emptyStore : Store := ⟨[], 1⟩

/-- The natural key triple of a stored row. -/
def rowKey (row : Row) : String × String × String := (row.river, row.station, row.timestamp)

/-- The natural key triple of a record, as used by the upsert conflict
target `ON CONFLICT(river, station, timestamp)`. -/
def rdKey (rd : RiverData) : String × String × String := (rd.river, rd.station, rd.timestamp)

/-- Whether a stored row collides with a record on the `(river, station,
timestamp)` uniqueness constraint. -/
def sameKey (row : Row) (rd : RiverData) : Bool := decide (rowKey row = rdKey rd)

/-- The `DO UPDATE SET water_level=excluded.water_level,
water_temp=excluded.water_temp` clause, applied to one row: rows matching
the conflict key get the record's mutable fields, others are untouched. -/
def applyUpd (rd : RiverData) (row : Row) : Row :=
  if sameKey row rd then { row with water_level := rd.waterLevel, water_temp := rd.waterTemp } else row

/-- The row inserted for a record when no conflict occurs.  Only the columns
of the schema are stored: `waterChange`, `discharge` and `tendency` of the
record have nowhere to go. -/
def newRow (i : Int) (rd : RiverData) : Row :=
  ⟨i, rd.river, rd.station, rd.waterLevel, rd.waterTemp, rd.timestamp⟩

/-- Whether the store already holds a row with the record's key: the
conflict test of the upsert. -/
def hasKeyFor (s : Store) (rd : RiverData) : Bool := s.rows.any (fun row => sameKey row rd)

/-- The `DO UPDATE` outcome of a conflicting upsert: rows with the
conflicting key get the record's mutable fields. -/
def updStore (s : Store) (rd : RiverData) : Store :=
  { s with rows := s.rows.map (applyUpd rd) }

/-- One execution of the prepared `INSERT ... ON CONFLICT(river, station,
timestamp) DO UPDATE` statement of `SaveRiverData`. -/
def upsertOne (s : Store) (rd : RiverData) : Store :=
  if hasKeyFor s rd then
    updStore s rd
  else
    { rows := s.rows ++ [newRow s.nextId rd], nextId := s.nextId + 1 }

/-- `SaveRiverData` of the SQLite repository: one transaction executing the
upsert statement once per record, in order.  (The transaction always
commits in this model; Go-side driver failures are outside the embedding.) -/
def SaveRiverData (s : Store) (data : List RiverData) : Store :=
  data.foldl upsertOne s

/-- Whether `row` is its station's latest row: the SQL condition
`(river, station, timestamp) IN (SELECT river, station, MAX(timestamp)
FROM river_data GROUP BY river, station)`.  A row's timestamp equals its
group's maximum exactly when it is at least every timestamp of the same
`(river, station)` group; timestamps are compared as text
(byte-wise, SQLite BINARY collation). -/
def isLatestRow (s : Store) (row : Row) : Bool :=
  decide (∀ r2 ∈ s.rows, r2.river = row.river → r2.station = row.station →
    r2.timestamp.data ≤ row.timestamp.data)

/-- Conversion of a fetched row back to the entity, as in the `rows.Scan`
loop of `GetRiverDataByName`: only the selected columns are filled, the
remaining entity fields keep the Go zero value `""`. -/
def rowToRiverData (row : Row) : RiverData :=
  ⟨row.id, row.river, row.station, row.water_level, "", "", row.water_temp, "", row.timestamp⟩

/-- `GetRiverDataByName` of the SQLite repository: the latest row of every
station of the given river, `ORDER BY station`. -/
def GetRiverDataByName (s : Store) (riverName : String) : List RiverData :=
  List.insertionSort (fun a b => a.station.data ≤ b.station.data)
    ((s.rows.filter (fun row => row.river == riverName && isLatestRow s row)).map rowToRiverData)

/-- `GetUniqueRivers` of the SQLite repository: `SELECT DISTINCT river ...
WHERE (river, station, timestamp) IN (latest-per-station) ORDER BY river`.
Sorting before deduplicating returns the distinct names in ascending
order, as the SQL does. -/
def GetUniqueRivers (s : Store) : List String :=
  (List.insertionSort (fun a b : String => a.data ≤ b.data)
    ((s.rows.filter (isLatestRow s)).map (fun row => row.river))).dedup

/-- Byte-wise maximum of two timestamp strings, as SQLite's BINARY
collation compares them. -/
def maxTs (a b : String) : String := if a.data ≤ b.data then b else a

/-- `SELECT MAX(timestamp) FROM river_data`: the byte-wise greatest stored
timestamp string, `NULL` (here `none`) on an empty table. -/
def maxTimestampStr (s : Store) : Option String :=
  match s.rows.map (fun row => row.timestamp) with
  | [] => none
  | t :: ts => some (ts.foldl maxTs t)

/-- The time zone designator carried by a value produced by Go `time.Parse`
or `time.ParseInLocation` in `GetLastUpdateTime`: the process-local zone,
UTC (an explicit `Z`), or a fixed numeric offset in minutes east. -/
inductive GoZone where
  | localZone : GoZone
  | utcZone : GoZone
  | offsetZone : Int → GoZone
deriving DecidableEq

/-- A parsed Go `time.Time` instant as far as the repository claims need it:
the civil fields, the fractional-second digits (as a number), and the zone. -/
structure GoTime where
  year : Nat
  month : Nat
  day : Nat
  hour : Nat
  minute : Nat
  second : Nat
  frac : Nat
  zone : GoZone
deriving DecidableEq

/-- Numeric value of a decimal digit character. -/
def digitVal (c : Char) : Nat := c.toNat - '0'.toNat

/-- Read exactly `n` decimal digits (Go `getnum` with a zero-padded layout
element such as `2006`, `01`, `15`), returning their value and the rest. -/
def readFixedNat : Nat → Nat → List Char → Option (Nat × List Char)
  | 0, acc, cs => some (acc, cs)
  | _ + 1, _, [] => none
  | n + 1, acc, c :: cs =>
    if c.isDigit then readFixedNat n (acc * 10 + digitVal c) cs else none

/-- Consume one expected literal layout character. -/
def expectChar (c : Char) : List Char → Option (List Char)
  | [] => none
  | x :: xs => if x == c then some xs else none

/-- Go `time.Parse` tolerance for fractional seconds: directly after the
seconds, a `.` or `,` followed by at least one digit is consumed even when
the layout has no fractional element. -/
def readOptFrac (cs : List Char) : Nat × List Char :=
  match cs with
  | p :: c :: rest =>
    if (p == '.' || p == ',') && c.isDigit then
      let digits := (c :: rest).takeWhile Char.isDigit
      let rest2 := (c :: rest).dropWhile Char.isDigit
      (digits.foldl (fun acc d => acc * 10 + digitVal d) 0, rest2)
    else (0, cs)
  | _ => (0, cs)

/-- Number of days of a month, as Go `time` uses for range-checking the
parsed day. -/
def daysInMonth (year month : Nat) : Nat :=
  if month == 2 then
    if year % 4 == 0 && (year % 100 != 0 || year % 400 == 0) then 29 else 28
  else if month == 4 || month == 6 || month == 9 || month == 11 then 30
  else 31

/-- Go `time.Parse` range checks on the parsed civil fields. -/
def validCivil (y mo d h mi s : Nat) : Bool :=
  decide (1 ≤ mo ∧ mo ≤ 12 ∧ 1 ≤ d ∧ d ≤ daysInMonth y mo ∧ h ≤ 23 ∧ mi ≤ 59 ∧ s ≤ 59)

/-- Parse the common `2006-01-02<sep>15:04:05` core of all four layouts
tried by `GetLastUpdateTime`, plus Go's optional fractional seconds. -/
def readCivilCore (sep : Char) (cs : List Char) :
    Option ((Nat × Nat × Nat × Nat × Nat × Nat × Nat) × List Char) :=
  match readFixedNat 4 0 cs with
  | none => none
  | some (y, cs) =>
    match expectChar '-' cs with
    | none => none
    | some cs =>
      match readFixedNat 2 0 cs with
      | none => none
      | some (mo, cs) =>
        match expectChar '-' cs with
        | none => none
        | some cs =>
          match readFixedNat 2 0 cs with
          | none => none
          | some (d, cs) =>
            match expectChar sep cs with
            | none => none
            | some cs =>
              match readFixedNat 2 0 cs with
              | none => none
              | some (h, cs) =>
                match expectChar ':' cs with
                | none => none
                | some cs =>
                  match readFixedNat 2 0 cs with
                  | none => none
                  | some (mi, cs) =>
                    match expectChar ':' cs with
                    | none => none
                    | some cs =>
                      match readFixedNat 2 0 cs with
                      | none => none
                      | some (sec, cs) =>
                        let (fr, cs) := readOptFrac cs
                        if validCivil y mo d h mi sec then
                          some ((y, mo, d, h, mi, sec, fr), cs)
                        else none

/-- Parse a numeric zone offset `+hh:mm` or `-hh:mm` (layout `-07:00`). -/
def readNumOffset (cs : List Char) : Option (Int × List Char) :=
  match cs with
  | c :: cs =>
    if c == '+' || c == '-' then
      match readFixedNat 2 0 cs with
      | none => none
      | some (h, cs) =>
        match expectChar ':' cs with
        | none => none
        | some cs =>
          match readFixedNat 2 0 cs with
          | none => none
          | some (m, cs) =>
            let mins : Int := h * 60 + m
            some (if c == '-' then -mins else mins, cs)
    else none
  | [] => none

/-- Go `time.Parse(time.RFC3339, s)`: layout `2006-01-02T15:04:05Z07:00` —
a `T` separator and a mandatory zone, either the literal `Z` (UTC) or a
numeric offset; nothing may follow. -/
def goParseRFC3339 (s : String) : Option GoTime :=
  match readCivilCore 'T' s.data with
  | none => none
  | some ((y, mo, d, h, mi, sec, fr), cs) =>
    match cs with
    | 'Z' :: rest =>
      if rest.isEmpty then some ⟨y, mo, d, h, mi, sec, fr, .utcZone⟩ else none
    | _ =>
      match readNumOffset cs with
      | some (off, []) => some ⟨y, mo, d, h, mi, sec, fr, .offsetZone off⟩
      | _ => none

/-- Go `time.ParseInLocation("2006-01-02 15:04:05", s, time.Local)`: the
space-separated SQLite `DATETIME` layout without zone, interpreted in the
process-local zone; nothing may follow. -/
def goParseSQLiteLocal (s : String) : Option GoTime :=
  match readCivilCore ' ' s.data with
  | some ((y, mo, d, h, mi, sec, fr), []) => some ⟨y, mo, d, h, mi, sec, fr, .localZone⟩
  | _ => none

/-- Go `time.Parse("2006-01-02 15:04:05-07:00", s)`: space-separated layout
with a mandatory signed numeric offset. -/
def goParseNumOffset (s : String) : Option GoTime :=
  match readCivilCore ' ' s.data with
  | none => none
  | some ((y, mo, d, h, mi, sec, fr), cs) =>
    match readNumOffset cs with
    | some (off, []) => some ⟨y, mo, d, h, mi, sec, fr, .offsetZone off⟩
    | _ => none

/-- Go `time.Parse("2006-01-02 15:04:05Z07:00", s)`: space-separated layout
whose zone is either the literal `Z` (UTC) or a signed numeric offset. -/
def goParseZOffset (s : String) : Option GoTime :=
  match readCivilCore ' ' s.data with
  | none => none
  | some ((y, mo, d, h, mi, sec, fr), cs) =>
    match cs with
    | 'Z' :: rest =>
      if rest.isEmpty then some ⟨y, mo, d, h, mi, sec, fr, .utcZone⟩ else none
    | _ =>
      match readNumOffset cs with
      | some (off, []) => some ⟨y, mo, d, h, mi, sec, fr, .offsetZone off⟩
      | _ => none

/-- The retry chain of `GetLastUpdateTime`: the four textual layouts tried
in the order of the code — RFC3339, local SQLite `DATETIME`, numeric
offset suffix, `Z`-or-offset suffix. -/
def tryParseTimestampFormats (s : String) : Option GoTime :=
  match goParseRFC3339 s with
  | some t => some t
  | none =>
    match goParseSQLiteLocal s with
    | some t => some t
    | none =>
      match goParseNumOffset s with
      | some t => some t
      | none => goParseZOffset s

/-- `GetLastUpdateTime` of the SQLite repository.  `.ok none` models Go's
`(time.Time{}, nil)` — the zero instant with a nil error — returned when
the table is empty (`MAX` is `NULL`) or the stored maximum is the empty
string; a non-empty maximum that no layout parses is a hard error. -/
def GetLastUpdateTime (s : Store) : Except String (Option GoTime) :=
  match maxTimestampStr s with
  | none => .ok none
  | some ts =>
    if ts = "" then .ok none
    else
      match tryParseTimestampFormats ts with
      | some t => .ok (some t)
      | none => .error ("failed to parse timestamp " ++ ts)

/-- A value built by Go `time.Date(year, month, day, hour, minute, 0, 0,
loc)` in `parseTimestampText`, kept as its civil components plus the IANA
location name.  (All inputs the claims touch are in range, so `time.Date`
normalization does not matter here.) -/
structure CivilTime where
  year : Int
  month : Int
  day : Int
  hour : Int
  minute : Int
  loc : String
deriving DecidableEq

/-- Go `fmt` `%d` verb: skip leading whitespace, then an optionally signed
decimal integer. -/
def scanInt (cs : List Char) : Option (Int × List Char) :=
  let cs := cs.dropWhile Char.isWhitespace
  let readNat (cs : List Char) : Option (Nat × List Char) :=
    let digits := cs.takeWhile Char.isDigit
    if digits.isEmpty then none
    else some (digits.foldl (fun acc d => acc * 10 + digitVal d) 0, cs.dropWhile Char.isDigit)
  match cs with
  | '-' :: rest => (readNat rest).map (fun p => (-(p.1 : Int), p.2))
  | '+' :: rest => (readNat rest).map (fun p => ((p.1 : Int), p.2))
  | _ => (readNat cs).map (fun p => ((p.1 : Int), p.2))

/-- Go `fmt.Sscanf(s, "%d.%d.%d.", ...)` as used for the `DD.MM.YYYY.`
date token: three integers separated by literal dots, with the trailing
dot required. -/
def sscanfDate (s : String) : Option (Int × Int × Int) :=
  match scanInt s.data with
  | none => none
  | some (d, cs) =>
    match expectChar '.' cs with
    | none => none
    | some cs =>
      match scanInt cs with
      | none => none
      | some (mo, cs) =>
        match expectChar '.' cs with
        | none => none
        | some cs =>
          match scanInt cs with
          | none => none
          | some (y, cs) =>
            match expectChar '.' cs with
            | none => none
            | some _ => some (d, mo, y)

/-- Go `fmt.Sscanf(s, "%d:%d", ...)` as used for the `H:MM` time token. -/
def sscanfTime (s : String) : Option (Int × Int) :=
  match scanInt s.data with
  | none => none
  | some (h, cs) =>
    match expectChar ':' cs with
    | none => none
    | some cs =>
      match scanInt cs with
      | none => none
      | some (mi, _) => some (h, mi)

/-- `parseTimestampText` of the water scraper: split the bulletin phrase on
the time label, take the text after the first `:` of the date part, pick
the first whitespace-separated token containing a dot (skipping a leading
weekday name), scan it as `DD.MM.YYYY.`, cut the time part before any
parenthetical and scan it as `H:MM`, and build the instant in the
Europe/Belgrade zone.  `none` models the Go zero `time.Time` returned on
any failure (an out-of-range index in the Go code would panic; such inputs
also yield `none` here). -/
def parseTimestampText (text : String) : Option CivilTime :=
  if goContains text "Хидролошки подаци:" && goContains text "време:" then
    match goSplit text "време:" with
    | p0 :: p1 :: _ =>
      match goSplit p0 ":" with
      | _ :: afterLabel :: _ =>
        let dateText := goTrim afterLabel
        let dateFields := goFields dateText
        let dateStr := (dateFields.find? (fun f => goContains f ".")).getD ""
        let timeStr := goTrim (((goSplit p1 "(").head?).getD "")
        match sscanfDate dateStr, sscanfTime timeStr with
        | some (d, mo, y), some (h, mi) => some ⟨y, mo, d, h, mi, "Europe/Belgrade"⟩
        | _, _ => none
      | _ => none
    | _ => none
  else none

/-- State threaded through the row loop of step 6 of `FetchRhmzRsData`:
whether the `РИЈЕКА` header row has been passed, the river name carried
across rows, and the records collected so far. -/
structure RhmzState where
  headerPassed : Bool
  currentRiver : String
  data : List RiverData
deriving DecidableEq

/-- Tendency glyph mapping of `FetchRhmzRsData`. -/
def rhmzTendency (t : String) : String :=
  if t == "▲" then "rising"
  else if t == "▼" then "falling"
  else if t == "●" then "stable"
  else ""

/-- Cell access `cells.Eq(i).Text()`: goquery returns the empty string for
an out-of-range index. -/
def cellAt (cells : List String) (i : Nat) : String := cells.getD i ""

/-- One iteration of the `doc.Find("table tr")` loop in step 6 of
`FetchRhmzRsData`, with a table row given as its list of cell texts. -/
def rhmzStep (ts : String) (st : RhmzState) (cells : List String) : RhmzState :=
  if cells.length < 4 then st
  else if !st.headerPassed then
    if goTrim (cellAt cells 0) == "РИЈЕКА" then { st with headerPassed := true } else st
  else
    let firstCellText := goTrim (cellAt cells 0)
    if firstCellText == "" || goContains firstCellText "Напомена" ||
        goContains firstCellText "Легенда" then st
    else
      let riverName := goTrim (cellAt cells 0)
      if riverName == "" && st.currentRiver == "" then st
      else
        let currentRiver := if riverName != "" then riverName else st.currentRiver
        let station := goTrim (cellAt cells 1)
        if station == "" then { st with currentRiver := currentRiver }
        else
          let waterLevel0 := goTrim (cellAt cells 3)
          let waterLevel := if waterLevel0 == "-" || waterLevel0 == "" then "0" else waterLevel0
          let waterChange := goTrim (cellAt cells 4)
          let waterTemp0 := goTrim (cellAt cells 5)
          let waterTemp := if waterTemp0 == "-" then "" else waterTemp0
          let discharge0 := goTrim (cellAt cells 6)
          let discharge := if discharge0 == "-" then "" else discharge0
          let tendency := rhmzTendency (goTrim (cellAt cells 7))
          { headerPassed := st.headerPassed, currentRiver := currentRiver,
            data := st.data ++
              [⟨0, currentRiver, station, waterLevel, waterChange, discharge, waterTemp,
                tendency, ts⟩] }

/-- The table-extraction part (step 6) of `FetchRhmzRsData`: fold the row
loop over the parsed table, with the shared bulletin timestamp `ts` already
extracted in step 5. -/
def FetchRhmzRsTable (ts : String) (rows : List (List String)) : List RiverData :=
  (rows.foldl (rhmzStep ts) ⟨false, "", []⟩).data

/-- The record list of a fetch result, empty for a failed fetch — how
`RefreshRiverData` treats each best-effort secondary source. -/
def okOrEmpty (r : Except String (List RiverData)) : List RiverData :=
  match r with
  | .ok l => l
  | .error _ => []

/-- `RefreshRiverData` of the river use case, over the outcomes of the
three adapter fetches (`FetchWaterData`, `FetchGradacRiverData`,
`FetchRhmzRsData`) and the prior store.  A failed primary fetch aborts
before any save, leaving the store untouched; a failed secondary fetch is
only logged and its records are omitted from the saved batch. -/
def RefreshRiverData (primary gradac rhmz : Except String (List RiverData)) (s : Store) :
    Except String Unit × Store :=
  match primary with
  | .error e => (.error ("failed to fetch general water data: " ++ e), s)
  | .ok data => (.ok (), SaveRiverData s (data ++ okOrEmpty gradac ++ okOrEmpty rhmz))

/-- The `(river, station, timestamp)` keys of the store are pairwise
distinct — the `UNIQUE(river, station, timestamp)` table constraint. -/
def NoDupKeys (s : Store) : Prop := (s.rows.map rowKey).Nodup

/-- Every row of `s` that shares the record's key already carries the
record's mutable column values. -/
def valueFixed (s : Store) (rd : RiverData) : Prop :=
  ∀ row ∈ s.rows, sameKey row rd = true →
    row.water_level = rd.waterLevel ∧ row.water_temp = rd.waterTemp

/-- A store exercising the stale-river situation of the unique-rivers
claim: river `А` has station `С1` whose only (hence latest) row is older
than every other row in the table, and a second station `С2` with a newer
row; river `Б` has one newer row. -/
def staleStore : Store :=
  ⟨[⟨1, "А", "С1", "10", "", "2025-04-10 06:00:00"⟩,
    ⟨2, "А", "С2", "20", "", "2025-04-19 06:00:00"⟩,
    ⟨3, "Б", "С3", "30", "", "2025-04-19 06:00:00"⟩], 4⟩

/-- The row-span table of the carry-forward claim, as cell texts: after the
header row, row 1 names river `X` and rows 2 and 3 have a blank river cell
but non-empty station cells. -/
def rowSpanTable : List (List String) :=
  [["РИЈЕКА", "СТАНИЦА", "КОТА", "ВОДОСТАЈ", "ПРОМЈ", "ТЕМП", "ПРОТИЦАЈ", "ТЕНД"],
   ["X", "S1", "140.00", "100", "-2", "-", "350.50", "▼"],
   ["", "S2", "139.00", "101", "3", "10.1", "-", "▲"],
   ["", "S3", "138.00", "102", "0", "-", "-", "●"]]

/-- A record carrying all eight entity fields, used to exhibit the fields
that the table schema cannot hold. -/
def fullRecord : RiverData :=
  ⟨0, "Дрина", "Зворник", "120", "+5", "350", "10.2", "rising", "2025-04-18 06:00:00"⟩



/-- `applyUpd` never changes a row's key columns. -/
theorem rowKey_applyUpd (rd : RiverData) (row : Row) : rowKey (applyUpd rd row) = rowKey row := by
  unfold applyUpd
  split <;> rfl

/-- Conflict tests are insensitive to prior `applyUpd` rewrites. -/
theorem sameKey_applyUpd (rd rd2 : RiverData) (row : Row) :
    sameKey (applyUpd rd2 row) rd = sameKey row rd := by
  simp [sameKey, rowKey_applyUpd]

/-- A row matching the record's key gets exactly the record's mutable
columns from `applyUpd`. -/
theorem applyUpd_values (rd : RiverData) (row : Row) (h : sameKey row rd = true) :
    (applyUpd rd row).water_level = rd.waterLevel ∧ (applyUpd rd row).water_temp = rd.waterTemp := by
  simp [applyUpd, h]

/-- A row not matching the record's key is untouched by `applyUpd`. -/
theorem applyUpd_of_ne (rd : RiverData) (row : Row) (h : sameKey row rd = false) :
    applyUpd rd row = row := by
  simp [applyUpd, h]

/-- A freshly inserted row carries the record's key. -/
theorem sameKey_newRow (i : Int) (rd : RiverData) : sameKey (newRow i rd) rd = true := by
  simp [sameKey, newRow, rowKey, rdKey]

/-- The key of a freshly inserted row. -/
theorem rowKey_newRow (i : Int) (rd : RiverData) : rowKey (newRow i rd) = rdKey rd := rfl

/-- Rewriting rows with `applyUpd` does not change any key-membership
test. -/
theorem any_sameKey_map (rd rd2 : RiverData) (l : List Row) :
    (l.map (applyUpd rd2)).any (fun row => sameKey row rd) = l.any (fun row => sameKey row rd) := by
  induction l with
  | nil => rfl
  | cons r t ih => simp [List.any_cons, sameKey_applyUpd, ih]

/-- `updStore` does not change which keys are occupied. -/
theorem hasKeyFor_updStore (s : Store) (rd rd2 : RiverData) :
    hasKeyFor (updStore s rd2) rd = hasKeyFor s rd := by
  show ((s.rows.map (applyUpd rd2)).any fun row => sameKey row rd) = hasKeyFor s rd
  rw [any_sameKey_map]
  rfl

/-- The upsert leaves its own key occupied. -/
theorem hasKeyFor_upsertOne_self (s : Store) (rd : RiverData) :
    hasKeyFor (upsertOne s rd) rd = true := by
  by_cases h : hasKeyFor s rd = true
  · rw [upsertOne, if_pos h, hasKeyFor_updStore]
    exact h
  · rw [upsertOne, if_neg h]
    show ((s.rows ++ [newRow s.nextId rd]).any fun row => sameKey row rd) = true
    simp [List.any_append, sameKey_newRow]

/-- Upserts never remove keys. -/
theorem hasKeyFor_upsertOne_mono (s : Store) (rd rd2 : RiverData) (h : hasKeyFor s rd = true) :
    hasKeyFor (upsertOne s rd2) rd = true := by
  by_cases h2 : hasKeyFor s rd2 = true
  · rw [upsertOne, if_pos h2, hasKeyFor_updStore]
    exact h
  · rw [upsertOne, if_neg h2]
    have h3 : (s.rows.any fun row => sameKey row rd) = true := h
    show ((s.rows ++ [newRow s.nextId rd2]).any fun row => sameKey row rd) = true
    simp [List.any_append, h3]

/-- Saving a batch never removes keys. -/
theorem hasKeyFor_save_mono (d : List RiverData) (rd : RiverData) :
    ∀ s : Store, hasKeyFor s rd = true → hasKeyFor (SaveRiverData s d) rd = true := by
  induction d with
  | nil => exact fun s h => h
  | cons r t ih => exact fun s h => ih (upsertOne s r) (hasKeyFor_upsertOne_mono s rd r h)

/-- After saving a batch, every record of the batch has its key in the
store. -/
theorem hasKeyFor_save_of_mem (d : List RiverData) (rd : RiverData) (h : rd ∈ d) :
    ∀ s : Store, hasKeyFor (SaveRiverData s d) rd = true := by
  induction d with
  | nil => cases h
  | cons r t ih =>
    intro s
    rcases List.mem_cons.mp h with hr | ht
    · subst hr
      exact hasKeyFor_save_mono t rd (upsertOne s rd) (hasKeyFor_upsertOne_self s rd)
    · exact ih ht (upsertOne s r)

/-- When every key of the batch is already occupied, saving the batch is a
pure sequence of conflict updates. -/
theorem save_eq_foldl_updStore (d : List RiverData) :
    ∀ s : Store, (∀ rd ∈ d, hasKeyFor s rd = true) → SaveRiverData s d = d.foldl updStore s := by
  induction d with
  | nil => exact fun s _ => rfl
  | cons r t ih =>
    intro s h
    have hr : upsertOne s r = updStore s r := by
      rw [upsertOne, if_pos (h r (List.mem_cons_self r t))]
    show SaveRiverData (upsertOne s r) t = List.foldl updStore (updStore s r) t
    rw [hr, ih (updStore s r)]
    intro rd hrd
    rw [hasKeyFor_updStore]
    exact h rd (List.mem_cons_of_mem r hrd)



/-- `applyUpd` for two different keys acts on disjoint rows, so the two
rewrites commute. -/
theorem applyUpd_comm (rd1 rd2 : RiverData) (hk : rdKey rd1 ≠ rdKey rd2) (row : Row) :
    applyUpd rd2 (applyUpd rd1 row) = applyUpd rd1 (applyUpd rd2 row) := by
  by_cases h1 : sameKey row rd1 = true
  · have h2 : sameKey row rd2 = false := by
      rcases Bool.eq_false_or_eq_true (sameKey row rd2) with h | h
      · exact absurd ((decide_eq_true_iff.mp h1).symm.trans (decide_eq_true_iff.mp h)) hk
      · exact h
    rw [applyUpd_of_ne rd2 row h2]
    rw [applyUpd_of_ne rd2 (applyUpd rd1 row) ((sameKey_applyUpd rd2 rd1 row).trans h2)]
  · have h1f : sameKey row rd1 = false := Bool.not_eq_true _ |>.mp h1
    rw [applyUpd_of_ne rd1 row h1f]
    rw [applyUpd_of_ne rd1 (applyUpd rd2 row) ((sameKey_applyUpd rd1 rd2 row).trans h1f)]

/-- A second `applyUpd` with the same key overwrites the first. -/
theorem applyUpd_overwrite (rd1 rd2 : RiverData) (hk : rdKey rd1 = rdKey rd2) (row : Row) :
    applyUpd rd2 (applyUpd rd1 row) = applyUpd rd2 row := by
  by_cases h1 : sameKey row rd1 = true
  · have h2 : sameKey row rd2 = true := by
      rw [sameKey, decide_eq_true_iff]
      exact (decide_eq_true_iff.mp h1).trans hk
    have e1 : applyUpd rd1 row = { row with water_level := rd1.waterLevel, water_temp := rd1.waterTemp } := by
      simp only [applyUpd, h1, if_true]
    rw [e1]
    have h2b : sameKey { row with water_level := rd1.waterLevel, water_temp := rd1.waterTemp } rd2 = true := by
      rw [← e1]
      exact (sameKey_applyUpd rd2 rd1 row).trans h2
    simp only [applyUpd, h2b, h2, if_true]
  · rw [applyUpd_of_ne rd1 row (Bool.not_eq_true _ |>.mp h1)]

/-- Conflict updates for different keys commute on whole stores. -/
theorem updStore_comm (s : Store) (rd1 rd2 : RiverData) (hk : rdKey rd1 ≠ rdKey rd2) :
    updStore (updStore s rd1) rd2 = updStore (updStore s rd2) rd1 := by
  show Store.mk ((s.rows.map (applyUpd rd1)).map (applyUpd rd2)) s.nextId =
    Store.mk ((s.rows.map (applyUpd rd2)).map (applyUpd rd1)) s.nextId
  rw [List.map_map, List.map_map]
  exact congrArg (fun l => Store.mk l s.nextId)
    (List.map_congr_left (fun row _ => applyUpd_comm rd1 rd2 hk row))

/-- A conflict update with the same key absorbs an earlier one. -/
theorem updStore_overwrite (s : Store) (rd1 rd2 : RiverData) (hk : rdKey rd1 = rdKey rd2) :
    updStore (updStore s rd1) rd2 = updStore s rd2 := by
  show Store.mk ((s.rows.map (applyUpd rd1)).map (applyUpd rd2)) s.nextId =
    Store.mk (s.rows.map (applyUpd rd2)) s.nextId
  rw [List.map_map]
  exact congrArg (fun l => Store.mk l s.nextId)
    (List.map_congr_left (fun row _ => applyUpd_overwrite rd1 rd2 hk row))

/-- An update whose key is written again later in the batch is absorbed by
the later write. -/
theorem foldl_updStore_absorb (t : List RiverData) (rd : RiverData) :
    ∀ s : Store, (∃ u ∈ t, rdKey u = rdKey rd) →
      t.foldl updStore (updStore s rd) = t.foldl updStore s := by
  induction t with
  | nil =>
    rintro s ⟨u, hu, _⟩
    cases hu
  | cons u t2 ih =>
    rintro s ⟨v, hv, hkv⟩
    show List.foldl updStore (updStore (updStore s rd) u) t2 =
      List.foldl updStore (updStore s u) t2
    by_cases hku : rdKey u = rdKey rd
    · rw [updStore_overwrite s rd u hku.symm]
    · rcases List.mem_cons.mp hv with rfl | hv2
      · exact absurd hkv hku
      · rw [updStore_comm s rd u (fun h => hku h.symm)]
        exact ih (updStore s u) ⟨v, hv2, hkv⟩

/-- An update whose key never recurs in the batch can be postponed past the
whole batch. -/
theorem foldl_updStore_swap (t : List RiverData) (rd : RiverData) :
    ∀ s : Store, (∀ u ∈ t, rdKey u ≠ rdKey rd) →
      t.foldl updStore (updStore s rd) = updStore (t.foldl updStore s) rd := by
  induction t with
  | nil => exact fun s _ => rfl
  | cons u t2 ih =>
    intro s h
    show List.foldl updStore (updStore (updStore s rd) u) t2 =
      updStore (List.foldl updStore (updStore s u) t2) rd
    rw [updStore_comm s rd u (fun heq => h u (List.mem_cons_self u t2) heq.symm)]
    exact ih (updStore s u) (fun v hv => h v (List.mem_cons_of_mem u hv))

/-- After upserting a record, every row with its key carries its values. -/
theorem valueFixed_upsertOne_self (s : Store) (rd : RiverData) :
    valueFixed (upsertOne s rd) rd := by
  by_cases h : hasKeyFor s rd = true
  · rw [upsertOne, if_pos h]
    intro row hrow hkey
    obtain ⟨row0, hrow0, rfl⟩ := List.mem_map.mp hrow
    exact applyUpd_values rd row0 ((sameKey_applyUpd rd rd row0) ▸ hkey)
  · rw [upsertOne, if_neg h]
    intro row hrow hkey
    have hfalse : ∀ r2 ∈ s.rows, sameKey r2 rd = false := by
      have hany : (s.rows.any fun r2 => sameKey r2 rd) = false :=
        Bool.not_eq_true _ |>.mp h
      intro r2 hr2
      exact Bool.not_eq_true _ |>.mp (List.any_eq_false.mp hany r2 hr2)
    rcases List.mem_append.mp hrow with hold | hnew
    · rw [hfalse row hold] at hkey
      cases hkey
    · rw [List.mem_singleton.mp hnew]
      exact ⟨rfl, rfl⟩

/-- Upserting a record with a different key preserves `valueFixed`. -/
theorem valueFixed_upsertOne_other (s : Store) (rd rd2 : RiverData)
    (h : valueFixed s rd) (hk : rdKey rd2 ≠ rdKey rd) : valueFixed (upsertOne s rd2) rd := by
  by_cases h2 : hasKeyFor s rd2 = true
  · rw [upsertOne, if_pos h2]
    intro row hrow hkey
    obtain ⟨row0, hrow0, rfl⟩ := List.mem_map.mp hrow
    have hk0 : sameKey row0 rd = true := (sameKey_applyUpd rd rd2 row0) ▸ hkey
    have hne2 : sameKey row0 rd2 = false := by
      rcases Bool.eq_false_or_eq_true (sameKey row0 rd2) with ht | hf
      · exact absurd
          ((decide_eq_true_iff.mp ht).symm.trans (decide_eq_true_iff.mp hk0)) hk
      · exact hf
    rw [applyUpd_of_ne rd2 row0 hne2]
    exact h row0 hrow0 hk0
  · rw [upsertOne, if_neg h2]
    intro row hrow hkey
    rcases List.mem_append.mp hrow with hold | hnew
    · exact h row hold hkey
    · rw [List.mem_singleton.mp hnew] at hkey
      exact absurd (rowKey_newRow s.nextId rd2 ▸ decide_eq_true_iff.mp hkey) hk

/-- Saving a batch that never writes the record's key preserves
`valueFixed`. -/
theorem valueFixed_save (t : List RiverData) (rd : RiverData) :
    ∀ s : Store, (∀ u ∈ t, rdKey u ≠ rdKey rd) → valueFixed s rd →
      valueFixed (SaveRiverData s t) rd := by
  induction t with
  | nil => exact fun s _ h => h
  | cons u t2 ih =>
    intro s hne h
    exact ih (upsertOne s u)
      (fun v hv => hne v (List.mem_cons_of_mem u hv))
      (valueFixed_upsertOne_other s rd u h (hne u (List.mem_cons_self u t2)))

/-- A conflict update that writes values already present is the identity. -/
theorem updStore_of_valueFixed (s : Store) (rd : RiverData) (h : valueFixed s rd) :
    updStore s rd = s := by
  have hrows : s.rows.map (applyUpd rd) = s.rows := by
    have hid : s.rows.map (applyUpd rd) = s.rows.map id :=
      List.map_congr_left (fun row hrow => by
        by_cases hkey : sameKey row rd = true
        · obtain ⟨hwl, hwt⟩ := h row hrow hkey
          show applyUpd rd row = row
          simp only [applyUpd, if_pos hkey]
          rw [← hwl, ← hwt]
        · exact applyUpd_of_ne rd row (Bool.not_eq_true _ |>.mp hkey))
    rw [hid, List.map_id]
  show Store.mk (s.rows.map (applyUpd rd)) s.nextId = s
  rw [hrows]

/-- Replaying a batch as pure updates over the store it has just produced
changes nothing. -/
theorem foldl_updStore_replay (d : List RiverData) :
    ∀ s : Store, d.foldl updStore (SaveRiverData s d) = SaveRiverData s d := by
  induction d with
  | nil => exact fun _ => rfl
  | cons r t ih =>
    intro s
    show List.foldl updStore (updStore (SaveRiverData (upsertOne s r) t) r) t =
      SaveRiverData (upsertOne s r) t
    by_cases hex : ∃ u ∈ t, rdKey u = rdKey r
    · rw [foldl_updStore_absorb t r (SaveRiverData (upsertOne s r) t) hex]
      exact ih (upsertOne s r)
    · push_neg at hex
      rw [foldl_updStore_swap t r (SaveRiverData (upsertOne s r) t) hex, ih (upsertOne s r)]
      exact updStore_of_valueFixed _ r
        (valueFixed_save t r (upsertOne s r) hex (valueFixed_upsertOne_self s r))

/-- Saving the same batch twice produces the same store as saving it
once. -/
theorem saveRiverData_idem (s : Store) (d : List RiverData) :
    SaveRiverData (SaveRiverData s d) d = SaveRiverData s d := by
  rw [save_eq_foldl_updStore d (SaveRiverData s d)
    (fun rd hrd => hasKeyFor_save_of_mem d rd hrd s)]
  exact foldl_updStore_replay d s

/-- An upsert preserves distinctness of the stored keys. -/
theorem noDupKeys_upsertOne (s : Store) (rd : RiverData) (h : NoDupKeys s) :
    NoDupKeys (upsertOne s rd) := by
  by_cases hk : hasKeyFor s rd = true
  · rw [upsertOne, if_pos hk]
    show ((s.rows.map (applyUpd rd)).map rowKey).Nodup
    rw [List.map_map,
      show rowKey ∘ applyUpd rd = rowKey from funext (fun row => rowKey_applyUpd rd row)]
    exact h
  · rw [upsertOne, if_neg hk]
    show ((s.rows ++ [newRow s.nextId rd]).map rowKey).Nodup
    rw [List.map_append, List.nodup_append]
    refine ⟨h, List.nodup_singleton _, ?_⟩
    intro k hk1 hk2
    obtain ⟨row, hrow, rfl⟩ := List.mem_map.mp hk1
    have hkeq : rowKey row = rdKey rd := by
      simpa [rowKey_newRow] using hk2
    have hany : (s.rows.any fun r2 => sameKey r2 rd) = false :=
      Bool.not_eq_true _ |>.mp hk
    have := List.any_eq_false.mp hany row hrow
    exact this (decide_eq_true_iff.mpr hkeq)

/-- Saving any batch preserves distinctness of the stored keys. -/
theorem noDupKeys_save (d : List RiverData) :
    ∀ s : Store, NoDupKeys s → NoDupKeys (SaveRiverData s d) := by
  induction d with
  | nil => exact fun _ h => h
  | cons r t ih => exact fun s h => ih (upsertOne s r) (noDupKeys_upsertOne s r h)




/-- Characterization of the rows returned by `GetRiverDataByName`: exactly
the latest row of each station of the river. -/
theorem mem_getRiverDataByName (s : Store) (R : String) (rd : RiverData) :
    rd ∈ GetRiverDataByName s R ↔
      ∃ row ∈ s.rows, row.river = R ∧ isLatestRow s row = true ∧ rowToRiverData row = rd := by
  unfold GetRiverDataByName
  rw [List.mem_insertionSort, List.mem_map]
  constructor
  · rintro ⟨row, hrow, rfl⟩
    rw [List.mem_filter] at hrow
    obtain ⟨hmem, hcond⟩ := hrow
    rw [Bool.and_eq_true] at hcond
    exact ⟨row, hmem, beq_iff_eq.mp hcond.1, hcond.2, rfl⟩
  · rintro ⟨row, hmem, hriv, hlat, rfl⟩
    refine ⟨row, List.mem_filter.mpr ⟨hmem, ?_⟩, rfl⟩
    rw [Bool.and_eq_true]
    exact ⟨beq_iff_eq.mpr hriv, hlat⟩

/-- `GetRiverDataByName` output is ordered by station name. -/
theorem sorted_getRiverDataByName (s : Store) (R : String) :
    List.Sorted (fun a b : RiverData => a.station.data ≤ b.station.data)
      (GetRiverDataByName s R) := by
  haveI : IsTotal RiverData (fun a b => a.station.data ≤ b.station.data) :=
    ⟨fun a b => le_total _ _⟩
  haveI : IsTrans RiverData (fun a b => a.station.data ≤ b.station.data) :=
    ⟨fun _ _ _ hab hbc => le_trans hab hbc⟩
  exact List.sorted_insertionSort _ _

/-- `GetUniqueRivers` output is sorted ascending. -/
theorem sorted_getUniqueRivers (s : Store) :
    List.Sorted (fun a b : String => a.data ≤ b.data) (GetUniqueRivers s) := by
  haveI : IsTotal String (fun a b => a.data ≤ b.data) := ⟨fun a b => le_total _ _⟩
  haveI : IsTrans String (fun a b => a.data ≤ b.data) :=
    ⟨fun _ _ _ hab hbc => le_trans hab hbc⟩
  exact List.Pairwise.sublist (List.dedup_sublist _) (List.sorted_insertionSort _ _)

/-- `GetUniqueRivers` lists every name at most once. -/
theorem nodup_getUniqueRivers (s : Store) : (GetUniqueRivers s).Nodup :=
  List.nodup_dedup _

/-- Characterization of `GetUniqueRivers`: the rivers of the per-station
latest rows, nothing else. -/
theorem mem_getUniqueRivers (s : Store) (name : String) :
    name ∈ GetUniqueRivers s ↔
      ∃ row ∈ s.rows, row.river = name ∧ isLatestRow s row = true := by
  unfold GetUniqueRivers
  rw [List.mem_dedup, List.mem_insertionSort, List.mem_map]
  constructor
  · rintro ⟨row, hrow, rfl⟩
    rw [List.mem_filter] at hrow
    exact ⟨row, hrow.1, rfl, hrow.2⟩
  · rintro ⟨row, hmem, rfl, hlat⟩
    exact ⟨row, List.mem_filter.mpr ⟨hmem, hlat⟩, rfl⟩

/-- The first max argument is dominated by the max. -/
theorem le_maxTs_left (a b : String) : a.data ≤ (maxTs a b).data := by
  unfold maxTs
  split
  · assumption
  · exact le_refl _

/-- The second max argument is dominated by the max. -/
theorem le_maxTs_right (a b : String) : b.data ≤ (maxTs a b).data := by
  unfold maxTs
  split
  · exact le_refl _
  · exact le_of_not_le (by assumption)

/-- The seed of the running maximum is dominated by the result. -/
theorem le_foldl_maxTs_seed (ts : List String) :
    ∀ t : String, t.data ≤ (ts.foldl maxTs t).data := by
  induction ts with
  | nil => exact fun _ => le_refl _
  | cons u ts2 ih => exact fun t => le_trans (le_maxTs_left t u) (ih (maxTs t u))

/-- Every scanned element is dominated by the running maximum. -/
theorem le_foldl_maxTs_mem (ts : List String) :
    ∀ t x : String, x ∈ ts → x.data ≤ (ts.foldl maxTs t).data := by
  induction ts with
  | nil =>
    intro _ _ hx
    cases hx
  | cons u ts2 ih =>
    intro t x hx
    rcases List.mem_cons.mp hx with rfl | hx2
    · exact le_trans (le_maxTs_right t x) (le_foldl_maxTs_seed ts2 (maxTs t x))
    · exact ih (maxTs t u) x hx2

/-- The running maximum is the seed or one of the scanned elements. -/
theorem foldl_maxTs_cases (ts : List String) :
    ∀ t : String, ts.foldl maxTs t = t ∨ ts.foldl maxTs t ∈ ts := by
  induction ts with
  | nil => exact fun _ => Or.inl rfl
  | cons u ts2 ih =>
    intro t
    rw [List.foldl_cons]
    rcases ih (maxTs t u) with heq | hmem
    · rw [heq]
      unfold maxTs
      split
      · exact Or.inr (List.mem_cons_self u ts2)
      · exact Or.inl rfl
    · exact Or.inr (List.mem_cons_of_mem u hmem)

/-- The `MAX(timestamp)` value is a stored timestamp and dominates every
stored timestamp. -/
theorem maxTimestampStr_spec (s : Store) (m : String) (h : maxTimestampStr s = some m) :
    (∃ row ∈ s.rows, row.timestamp = m) ∧ ∀ row ∈ s.rows, row.timestamp.data ≤ m.data := by
  unfold maxTimestampStr at h
  cases hrows : s.rows.map (fun row => row.timestamp) with
  | nil =>
    rw [hrows] at h
    cases h
  | cons t ts =>
    rw [hrows] at h
    injection h with h
    constructor
    · have hm : m = t ∨ m ∈ ts := h ▸ foldl_maxTs_cases ts t
      have hmem : m ∈ s.rows.map (fun row => row.timestamp) := by
        rw [hrows]
        rcases hm with rfl | hmm
        · exact List.mem_cons_self _ _
        · exact List.mem_cons_of_mem _ hmm
      obtain ⟨row, hrow, hts⟩ := List.mem_map.mp hmem
      exact ⟨row, hrow, hts⟩
    · intro row hrow
      have hmem : row.timestamp ∈ t :: ts := by
        rw [← hrows]
        exact List.mem_map.mpr ⟨row, hrow, rfl⟩
      rw [← h]
      rcases List.mem_cons.mp hmem with heq | hmm
      · rw [heq]
        exact le_foldl_maxTs_seed ts t
      · exact le_foldl_maxTs_mem ts t _ hmm

/-- An empty table yields the `NULL` branch of `GetLastUpdateTime`. -/
theorem getLastUpdateTime_of_empty (s : Store) (h : s.rows = []) :
    GetLastUpdateTime s = .ok none := by
  unfold GetLastUpdateTime maxTimestampStr
  rw [h]
  rfl

/-- A blank stored maximum yields the zero-time branch of
`GetLastUpdateTime`. -/
theorem getLastUpdateTime_of_blank (s : Store) (h : maxTimestampStr s = some "") :
    GetLastUpdateTime s = .ok none := by
  unfold GetLastUpdateTime
  rw [h]
  rfl

/-- With a non-blank maximum, `GetLastUpdateTime` is the format-retry chain
applied to that maximum. -/
theorem getLastUpdateTime_of_max (s : Store) (m : String) (h : maxTimestampStr s = some m)
    (hne : m ≠ "") :
    GetLastUpdateTime s = (match tryParseTimestampFormats m with
      | some t => Except.ok (some t)
      | none => Except.error ("failed to parse timestamp " ++ m)) := by
  unfold GetLastUpdateTime
  rw [h]
  show (if m = "" then Except.ok none
    else match tryParseTimestampFormats m with
      | some t => Except.ok (some t)
      | none => Except.error ("failed to parse timestamp " ++ m)) = _
  rw [if_neg hne]




/-- Claim C1: saving the same batch twice leaves the store — and hence
every `getByRiverName` read — exactly as after saving it once; saving
preserves the pairwise distinctness of `(river, station, timestamp)` keys;
and an upsert whose key already exists only rewrites the mutable columns
of existing rows, inserting nothing. -/
theorem claim_idempotent_upsert (s : Store) (d : List RiverData) :
    SaveRiverData (SaveRiverData s d) d = SaveRiverData s d ∧
    (∀ R, GetRiverDataByName (SaveRiverData (SaveRiverData s d) d) R =
      GetRiverDataByName (SaveRiverData s d) R) ∧
    (NoDupKeys s → NoDupKeys (SaveRiverData s d)) ∧
    (∀ rd, hasKeyFor s rd = true →
      upsertOne s rd = updStore s rd ∧ (upsertOne s rd).rows.length = s.rows.length) := by
  refine ⟨saveRiverData_idem s d, ?_, noDupKeys_save d s, ?_⟩
  · intro R
    rw [saveRiverData_idem s d]
  · intro rd h
    have hupd : upsertOne s rd = updStore s rd := by
      rw [upsertOne, if_pos h]
    refine ⟨hupd, ?_⟩
    rw [hupd]
    exact List.length_map _ _

/-- Witness for C1 at a concrete batch and store. -/
theorem claim_idempotent_upsert_witness :
    SaveRiverData (SaveRiverData emptyStore [fullRecord]) [fullRecord] =
      SaveRiverData emptyStore [fullRecord] ∧
    NoDupKeys (SaveRiverData emptyStore [fullRecord]) ∧
    upsertOne (SaveRiverData emptyStore [fullRecord]) fullRecord =
      updStore (SaveRiverData emptyStore [fullRecord]) fullRecord := by
  refine ⟨(claim_idempotent_upsert emptyStore [fullRecord]).1, ?_, ?_⟩
  · exact (claim_idempotent_upsert emptyStore [fullRecord]).2.2.1 (by unfold NoDupKeys; decide)
  · exact ((claim_idempotent_upsert (SaveRiverData emptyStore [fullRecord])
      [fullRecord]).2.2.2 fullRecord (by decide)).1

/-- Claim C2: when the primary adapter fetch fails, `RefreshRiverData`
returns an error and the persisted store is exactly the one from before
the call — no save happens and no secondary data is stored. -/
theorem claim_primary_mandatory (e : String) (gradac rhmz : Except String (List RiverData))
    (s : Store) :
    RefreshRiverData (.error e) gradac rhmz s =
      (.error ("failed to fetch general water data: " ++ e), s) ∧
    (RefreshRiverData (.error e) gradac rhmz s).2 = s :=
  ⟨rfl, rfl⟩

/-- Claim C5 (code behavior at the claim's failing input): on a table whose
continuation rows have a blank river cell, `FetchRhmzRsData`'s row loop
drops those rows entirely — only the row naming the river survives, so the
three claimed Records do not materialize. -/
theorem claim_rowspan_code_behavior :
    FetchRhmzRsTable "2025-04-20 07:00:00" rowSpanTable =
      [⟨0, "X", "S1", "100", "-2", "350.50", "", "falling", "2025-04-20 07:00:00"⟩] ∧
    (FetchRhmzRsTable "2025-04-20 07:00:00" rowSpanTable).length = 1 := by
  constructor
  · decide
  · decide

/-- Claim C7: timestamp extraction on the literal bulletin phrase yields
18 April 2025, 08:00 in Europe/Belgrade, skipping the leading weekday
token and the trailing parenthetical. -/
theorem claim_timestamp_roundtrip :
    parseTimestampText "Хидролошки подаци: ПЕТАК 18.04.2025. време: 8:00 (06:00 UTC)" =
      some ⟨2025, 4, 18, 8, 0, "Europe/Belgrade"⟩ := by decide

/-- Claim C8: when the primary fetch succeeds, `RefreshRiverData` returns
no error whatever the secondary fetches did, the saved batch simply omits
each failed secondary's records, and every primary record's key is present
in the resulting store. -/
theorem claim_partial_source_tolerance (d : List RiverData)
    (g rz : Except String (List RiverData)) (s : Store) :
    (RefreshRiverData (.ok d) g rz s).1 = .ok () ∧
    RefreshRiverData (.ok d) g rz s =
      (.ok (), SaveRiverData s (d ++ okOrEmpty g ++ okOrEmpty rz)) ∧
    (∀ eg er, RefreshRiverData (.ok d) (.error eg) (.error er) s =
      (.ok (), SaveRiverData s d)) ∧
    (∀ rd ∈ d, hasKeyFor (RefreshRiverData (.ok d) g rz s).2 rd = true) := by
  refine ⟨rfl, rfl, ?_, ?_⟩
  · intro eg er
    show (Except.ok (), SaveRiverData s (d ++ [] ++ [])) = (Except.ok (), SaveRiverData s d)
    rw [List.append_nil, List.append_nil]
  · intro rd hrd
    show hasKeyFor (SaveRiverData s (d ++ okOrEmpty g ++ okOrEmpty rz)) rd = true
    exact hasKeyFor_save_of_mem _ rd
      (List.mem_append.mpr (Or.inl (List.mem_append.mpr (Or.inl hrd)))) s

/-- Witness for C8: one primary record, both secondaries failing. -/
theorem claim_partial_source_tolerance_witness :
    (RefreshRiverData (.ok [fullRecord]) (.error "x") (.error "y") emptyStore).1 = .ok () ∧
    hasKeyFor (RefreshRiverData (.ok [fullRecord]) (.error "x") (.error "y") emptyStore).2
      fullRecord = true := by
  refine ⟨(claim_partial_source_tolerance [fullRecord] (.error "x") (.error "y") emptyStore).1, ?_⟩
  exact (claim_partial_source_tolerance [fullRecord] (.error "x") (.error "y") emptyStore).2.2.2
    fullRecord (List.mem_singleton.mpr rfl)

/-- Claim C9: `getUniqueRivers` is sorted ascending, lists each river
exactly once, and contains precisely the rivers of the per-station latest
rows — so a river whose only station's latest row is older than other
stations' rows is still listed, as the concrete stale-river store shows. -/
theorem claim_unique_rivers (s : Store) :
    List.Sorted (fun a b : String => a.data ≤ b.data) (GetUniqueRivers s) ∧
    (GetUniqueRivers s).Nodup ∧
    (∀ name, name ∈ GetUniqueRivers s ↔
      ∃ row ∈ s.rows, row.river = name ∧ isLatestRow s row = true) ∧
    GetUniqueRivers staleStore = ["А", "Б"] := by
  refine ⟨sorted_getUniqueRivers s, nodup_getUniqueRivers s, mem_getUniqueRivers s, ?_⟩
  decide

/-- Witness for C9: the stale river `А` is a member via the
characterization applied to the concrete store. -/
theorem claim_unique_rivers_witness : "А" ∈ GetUniqueRivers staleStore :=
  ((claim_unique_rivers staleStore).2.2.1 "А").mpr
    ⟨⟨1, "А", "С1", "10", "", "2025-04-10 06:00:00"⟩, by decide, rfl, by decide⟩

/-- Claim C10: on the empty table (`MAX` is `NULL`) and on a blank stored
maximum, `GetLastUpdateTime` returns the zero instant with a nil error
(`.ok none`), unlike the unparseable path which errors. -/
theorem claim_lastUpdateTime_zero_paths (s : Store) :
    (s.rows = [] → GetLastUpdateTime s = .ok none) ∧
    (maxTimestampStr s = some "" → GetLastUpdateTime s = .ok none) ∧
    GetLastUpdateTime emptyStore = .ok none := by
  refine ⟨getLastUpdateTime_of_empty s, getLastUpdateTime_of_blank s, ?_⟩
  decide

/-- Witness for C10: the empty store and a store whose only timestamp is
the empty string. -/
theorem claim_lastUpdateTime_zero_paths_witness :
    GetLastUpdateTime emptyStore = .ok none ∧
    GetLastUpdateTime ⟨[⟨1, "r", "s", "1", "", ""⟩], 2⟩ = .ok none := by
  constructor
  · exact (claim_lastUpdateTime_zero_paths emptyStore).1 rfl
  · exact (claim_lastUpdateTime_zero_paths ⟨[⟨1, "r", "s", "1", "", ""⟩], 2⟩).2.1 (by decide)

/-- Claim C6: `getLastUpdateTime` parses the byte-wise maximum stored
timestamp — which is a stored value dominating all stored timestamps —
through the four-format retry chain; a non-empty maximum that every format
rejects yields a hard error, never a silent zero value. -/
theorem claim_lastUpdateTime_formats (s : Store) (m : String) :
    (maxTimestampStr s = some m →
      (∃ row ∈ s.rows, row.timestamp = m) ∧ ∀ row ∈ s.rows, row.timestamp.data ≤ m.data) ∧
    (maxTimestampStr s = some m → m ≠ "" →
      GetLastUpdateTime s = (match tryParseTimestampFormats m with
        | some t => Except.ok (some t)
        | none => Except.error ("failed to parse timestamp " ++ m))) ∧
    (maxTimestampStr s = some m → m ≠ "" → tryParseTimestampFormats m = none →
      GetLastUpdateTime s = Except.error ("failed to parse timestamp " ++ m)) ∧
    (maxTimestampStr s = some m → m ≠ "" → ∀ t, tryParseTimestampFormats m = some t →
      GetLastUpdateTime s = Except.ok (some t)) := by
  refine ⟨maxTimestampStr_spec s m, getLastUpdateTime_of_max s m, ?_, ?_⟩
  · intro h hne hnone
    rw [getLastUpdateTime_of_max s m h hne, hnone]
  · intro h hne t ht
    rw [getLastUpdateTime_of_max s m h hne, ht]

/-- Witness for C6: a parseable maximum (RFC3339) and an unparseable
non-empty maximum, both through the main theorem. -/
theorem claim_lastUpdateTime_formats_witness :
    GetLastUpdateTime ⟨[⟨1, "r", "s", "1", "", "2025-04-18T06:00:00Z"⟩], 2⟩ =
      Except.ok (some ⟨2025, 4, 18, 6, 0, 0, 0, .utcZone⟩) ∧
    GetLastUpdateTime ⟨[⟨1, "r", "s", "1", "", "garbage"⟩,
      ⟨2, "r", "s2", "1", "", "2025-04-18 06:00:00"⟩], 3⟩ =
      Except.error "failed to parse timestamp garbage" := by
  constructor
  · exact (claim_lastUpdateTime_formats ⟨[⟨1, "r", "s", "1", "", "2025-04-18T06:00:00Z"⟩], 2⟩
      "2025-04-18T06:00:00Z").2.2.2 (by decide) (by decide) _ (by decide)
  · exact (claim_lastUpdateTime_formats ⟨[⟨1, "r", "s", "1", "", "garbage"⟩,
      ⟨2, "r", "s2", "1", "", "2025-04-18 06:00:00"⟩], 3⟩ "garbage").2.2.1
      (by decide) (by decide) (by decide)




/-- Claim C4 counterexample: the claim that every Record field is persisted
and returned intact is false — `fullRecord`'s `waterChange`, `discharge`
and `tendency` come back as empty strings because the table schema has no
columns for them. -/
theorem claim_schema_counterexample :
    (GetRiverDataByName (SaveRiverData emptyStore [fullRecord]) "Дрина").map
      (fun rd => (rd.waterChange, rd.discharge, rd.tendency)) = [("", "", "")] ∧
    (fullRecord.waterChange, fullRecord.discharge, fullRecord.tendency) =
      ("+5", "350", "rising") := by
  constructor
  · decide
  · decide

/-- Claim C4 (amended): the schema persists only `river`, `station`,
`water_level`, `water_temp` and `timestamp` (plus the surrogate id); those
five Record fields round-trip intact through a save-then-read, while
`waterChange`, `discharge` and `tendency` are dropped and read back as
empty strings. -/
theorem claim_schema_roundtrip_amended (rd : RiverData) :
    GetRiverDataByName (SaveRiverData emptyStore [rd]) rd.river =
      [⟨1, rd.river, rd.station, rd.waterLevel, "", "", rd.waterTemp, "", rd.timestamp⟩] := by
  have hsave : SaveRiverData emptyStore [rd] = ⟨[newRow 1 rd], 2⟩ := rfl
  rw [hsave]
  have hlat : isLatestRow ⟨[newRow 1 rd], 2⟩ (newRow 1 rd) = true := by
    simp only [isLatestRow, decide_eq_true_eq]
    intro r2 hr2 _ _
    rw [List.mem_singleton.mp hr2]
  have hcond : ((newRow 1 rd).river == rd.river &&
      isLatestRow ⟨[newRow 1 rd], 2⟩ (newRow 1 rd)) = true := by
    rw [hlat, Bool.and_true]
    exact beq_self_eq_true _
  have hfilter : List.filter
      (fun row => row.river == rd.river && isLatestRow ⟨[newRow 1 rd], 2⟩ row)
      [newRow 1 rd] = [newRow 1 rd] := by
    rw [List.filter_cons_of_pos, List.filter_nil]
    exact hcond
  unfold GetRiverDataByName
  rw [show (Store.mk [newRow 1 rd] 2).rows = [newRow 1 rd] from rfl, hfilter,
    List.map_cons, List.map_nil]
  rfl

/-- Claim C3: `getByRiverName` returns per-station latest rows ordered by
station name (general conjuncts), and in the two-save scenario — Record
`A` at `(R, S, T1)` then Record `B` at the same river and station with
`T2 > T1` and a different level — it returns `B`'s fields for `S`, not
`A`'s. -/
theorem claim_latest_wins (A B : RiverData) (hr : B.river = A.river)
    (hs : B.station = A.station) (ht : A.timestamp.data < B.timestamp.data)
    (hw : A.waterLevel ≠ B.waterLevel) :
    (∀ s R, List.Sorted (fun a b : RiverData => a.station.data ≤ b.station.data)
      (GetRiverDataByName s R)) ∧
    (∀ s R rd, rd ∈ GetRiverDataByName s R ↔
      ∃ row ∈ s.rows, row.river = R ∧ isLatestRow s row = true ∧ rowToRiverData row = rd) ∧
    GetRiverDataByName (SaveRiverData emptyStore [A, B]) A.river =
      [⟨2, B.river, B.station, B.waterLevel, "", "", B.waterTemp, "", B.timestamp⟩] ∧
    (GetRiverDataByName (SaveRiverData emptyStore [A, B]) A.river).map
      (fun rd => rd.waterLevel) = [B.waterLevel] ∧
    B.waterLevel ≠ A.waterLevel := by
  have htsne : A.timestamp ≠ B.timestamp := fun hEq => absurd ht (by rw [hEq]; exact lt_irrefl _)
  have hsave : SaveRiverData emptyStore [A, B] = ⟨[newRow 1 A, newRow 2 B], 3⟩ := by
    show upsertOne ⟨[newRow 1 A], 2⟩ B = ⟨[newRow 1 A, newRow 2 B], 3⟩
    have hk : hasKeyFor ⟨[newRow 1 A], 2⟩ B = false := by
      simp only [hasKeyFor, List.any_cons, List.any_nil, Bool.or_false]
      simp only [sameKey, decide_eq_false_iff_not, rowKey, newRow, rdKey]
      intro hEq
      exact htsne (congrArg (fun p => p.2.2) hEq)
    unfold upsertOne
    rw [hk]
    rfl
  have hlat1 : isLatestRow ⟨[newRow 1 A, newRow 2 B], 3⟩ (newRow 1 A) = false := by
    simp only [isLatestRow, decide_eq_false_iff_not]
    intro hall
    have hBA := hall (newRow 2 B)
      (List.mem_cons_of_mem _ (List.mem_singleton.mpr rfl)) hr hs
    exact absurd hBA (not_le.mpr ht)
  have hlat2 : isLatestRow ⟨[newRow 1 A, newRow 2 B], 3⟩ (newRow 2 B) = true := by
    simp only [isLatestRow, decide_eq_true_eq]
    intro r2 hr2 _ _
    rcases List.mem_cons.mp hr2 with rfl | h2
    · exact le_of_lt ht
    · rw [List.mem_singleton.mp h2]
  have hcond1 : ((newRow 1 A).river == A.river &&
      isLatestRow ⟨[newRow 1 A, newRow 2 B], 3⟩ (newRow 1 A)) = false := by
    rw [hlat1, Bool.and_false]
  have hcond2 : ((newRow 2 B).river == A.river &&
      isLatestRow ⟨[newRow 1 A, newRow 2 B], 3⟩ (newRow 2 B)) = true := by
    rw [hlat2, Bool.and_true]
    exact beq_iff_eq.mpr hr
  have hget : GetRiverDataByName (SaveRiverData emptyStore [A, B]) A.river =
      [⟨2, B.river, B.station, B.waterLevel, "", "", B.waterTemp, "", B.timestamp⟩] := by
    have hfilter : List.filter
        (fun row => row.river == A.river && isLatestRow ⟨[newRow 1 A, newRow 2 B], 3⟩ row)
        [newRow 1 A, newRow 2 B] = [newRow 2 B] := by
      rw [List.filter_cons_of_neg, List.filter_cons_of_pos, List.filter_nil]
      · exact hcond2
      · simp [hcond1]
    rw [hsave]
    unfold GetRiverDataByName
    rw [show (Store.mk [newRow 1 A, newRow 2 B] 3).rows = [newRow 1 A, newRow 2 B] from rfl,
      hfilter, List.map_cons, List.map_nil]
    rfl
  refine ⟨sorted_getRiverDataByName, mem_getRiverDataByName, hget, ?_, fun hEq => hw hEq.symm⟩
  rw [hget]
  rfl

/-- Witness for C3 at concrete records: the later, higher reading wins. -/
theorem claim_latest_wins_witness :
    GetRiverDataByName (SaveRiverData emptyStore
      [⟨0, "Р", "С", "100", "", "", "8.0", "", "2025-04-18 06:00:00"⟩,
       ⟨0, "Р", "С", "200", "", "", "9.0", "", "2025-04-19 06:00:00"⟩]) "Р" =
      [⟨2, "Р", "С", "200", "", "", "9.0", "", "2025-04-19 06:00:00"⟩] :=
  (claim_latest_wins ⟨0, "Р", "С", "100", "", "", "8.0", "", "2025-04-18 06:00:00"⟩
    ⟨0, "Р", "С", "200", "", "", "9.0", "", "2025-04-19 06:00:00"⟩
    rfl rfl (by decide) (by decide)).2.2.1


end WaterBot
